import Mathlib

/-
Shallow embedding of src/noise_suppressor.py (repository urbanAspect/RTNC-akustika).

Mapping to the source:
- `Port`                        : an OpenVINO input/output tensor slot, identified by its
                                  name (`get_any_name()`) and declared shape.
- `pyIn sub s`                  : the Python substring test `sub in s`.
- `stateIdOf`                   : `name.split("state_")[-1]` (line 38).  Implemented as the
                                  suffix after the last occurrence of `"state_"`; this equals
                                  the Python split because `"state_"` has no self-overlap.
- `audioInputOf`/`statesOf`/`audioOutputOf`/`resolvePorts`
                                : the port-classification loops of `__init__` (lines 26-51).
- `Engine` / `process_chunk`    : the `OpenVINONoiseSuppressor` object and its
                                  `process_chunk` method (lines 55-87).  The opaque backend
                                  call `infer_request.infer(input_data)` is a function field
                                  `infer`; a raised backend exception is `Except.error`.
                                  Audio samples are modelled as `Int` (the claims under study
                                  never depend on float arithmetic, only on lengths, shapes,
                                  and state plumbing).
- `getBlockSize`                : block-size derivation in `main` (lines 112-122).
- `padLen`/`padData`            : the padding step (lines 157-161).
- `chunkList`                   : the slicing loop `for i in range(0, len(data), BLOCK_SIZE)`
                                  (lines 166-168); `chunkListAux` carries fuel bounded by the
                                  list length, which suffices for every positive block size.
- `runChunks`                   : the sequential inference loop, propagating a backend error
                                  exactly as the uncaught Python exception would.
- `offlinePipeline`             : pad + loop + `np.concatenate(...)[:original_len]`
                                  (lines 157-172); `np.concatenate` of an empty list raises,
                                  hence the guard.
- `postResample`/`fullOffline`  : the resample step (lines 143-155) followed by the offline
                                  pipeline; the external `scipy.signal.resample_poly`
                                  collaborator is a function parameter.
- `okLength`/`preTruncLen`      : observers used to state length properties of a run.
-/

abbrev Sample := Int

/-- A named tensor slot on the compiled model (OpenVINO port). -/
structure Port where
  name : String
  shape : List Nat
deriving DecidableEq

/-- A tensor: a declared shape plus row-major flat data. -/
structure Tensor where
  shape : List Nat
  data : List Sample
deriving DecidableEq

/-- `leadsWith sub s` is true when `sub` occurs at the very start of `s`. -/
def leadsWith : List Char → List Char → Bool
  | [], _ => true
  | _ :: _, [] => false
  | a :: ra, b :: rb => a == b && leadsWith ra rb

/-- `hasSub sub s` decides whether `sub` occurs contiguously inside `s`
(the Python membership test `sub in s` on strings). -/
def hasSub (sub : List Char) : List Char → Bool
  | [] => leadsWith sub []
  | c :: t => leadsWith sub (c :: t) || hasSub sub t

/-- Python `sub in s` for strings. -/
def pyIn (sub s : String) : Bool :=
  hasSub sub.toList s.toList

/-- `afterLastAux tok s` returns the suffix of `s` following the last occurrence of
`tok`, or `none` if `tok` does not occur in `s`. -/
def afterLastAux (tok : List Char) : List Char → Option (List Char)
  | [] => none
  | c :: t =>
    match afterLastAux tok t with
    | some r => some r
    | none => if leadsWith tok (c :: t) then some ((c :: t).drop tok.length) else none

/-- Line 38: `state_id = name.split("state_")[-1]`.  Because `"state_"` cannot overlap
itself, the last element of the Python split is exactly the suffix after the last
occurrence of `"state_"` (the whole name when there is no occurrence). -/
def stateIdOf (name : String) : String :=
  match afterLastAux "state_".toList name.toList with
  | some r => ⟨r⟩
  | none => name

/-- One recurrent-state pair: the dict appended at lines 41-45. -/
structure StateEntry where
  input : Port
  output : Port
  buffer : Tensor
deriving DecidableEq

/-- `np.zeros(inp.shape, dtype=np.float32)` (line 44): a zero-filled tensor of the
input port's declared shape. -/
def zerosTensor (shape : List Nat) : Tensor :=
  ⟨shape, List.replicate (shape.foldl (· * ·) 1) 0⟩

/-- First port in the list satisfying `p` (a Python `for ... if ...: break` search). -/
def findFirstPort (p : Port → Bool) : List Port → Option Port
  | [] => none
  | o :: rest => if p o then some o else findFirstPort p rest

/-- Lines 31-34: every input whose name does not contain `"state"` overwrites
`self.audio_input`, so the last such input wins. -/
def audioInputOf (inputs : List Port) : Option Port :=
  inputs.foldl (fun acc inp => if pyIn "state" inp.name then acc else some inp) none

/-- Lines 31-46: for every input whose name contains `"state"`, pair it with the first
output whose name contains `"state_" ++ state_id`; if no output matches, the state input
is silently skipped (the `break` never fires and nothing is appended). -/
def statesOf (outputs : List Port) : List Port → List StateEntry
  | [] => []
  | inp :: rest =>
    if pyIn "state" inp.name then
      match findFirstPort (fun o => pyIn ("state_" ++ stateIdOf inp.name) o.name) outputs with
      | some o => ⟨inp, o, zerosTensor inp.shape⟩ :: statesOf outputs rest
      | none => statesOf outputs rest
    else statesOf outputs rest

/-- Lines 48-51: the first output whose name does not contain `"state"`. -/
def audioOutputOf (outputs : List Port) : Option Port :=
  findFirstPort (fun o => !pyIn "state" o.name) outputs

/-- The result of the port-classification part of `__init__` (lines 26-51).
Note it is a total function: no case raises. -/
structure Resolved where
  audio_input : Option Port
  audio_output : Option Port
  states : List StateEntry
deriving DecidableEq

/-- Lines 26-51 as one function from the model's declared ports. -/
def resolvePorts (inputs outputs : List Port) : Resolved :=
  ⟨audioInputOf inputs, audioOutputOf outputs, statesOf outputs inputs⟩

/-- The dict returned by `infer_request.infer`, keyed by output port. -/
abbrev InferResults := Port → Tensor

/-- The opaque backend execution: takes the bound input tensors, returns the output
dict or raises (an `Except.error`). -/
abbrev InferFun := List (Port × Tensor) → Except String InferResults

/-- The `OpenVINONoiseSuppressor` object after `__init__`: the resolved ports, the
per-pair state buffers, and the compiled backend session. -/
structure Engine where
  audio_input : Option Port
  audio_output : Option Port
  states : List StateEntry
  infer : InferFun

/-- `__init__` restricted to its port-resolution effect: classify ports, allocate
zero state buffers, keep the backend handle.  No failure path exists. -/
def initEngine (inputs outputs : List Port) (f : InferFun) : Engine :=
  ⟨(resolvePorts inputs outputs).audio_input,
   (resolvePorts inputs outputs).audio_output,
   (resolvePorts inputs outputs).states, f⟩

/-- Lines 63-68: `audio_chunk[None, :]` when the audio-input port is rank 2,
`audio_chunk[None, None, :]` otherwise. -/
def reshapeChunk (ai : Port) (chunk : List Sample) : Tensor :=
  if ai.shape.length = 2 then ⟨[1, chunk.length], chunk⟩
  else ⟨[1, 1, chunk.length], chunk⟩

/-- Lines 70-74: the input dict — the reshaped chunk bound to the audio-input port,
then every state buffer bound to its state-input port. -/
def mkInputData (ai : Port) (states : List StateEntry) (chunk : List Sample) :
    List (Port × Tensor) :=
  (ai, reshapeChunk ai chunk) :: states.map (fun s => (s.input, s.buffer))

/-- Lines 55-87, `process_chunk`.  Returns the flattened denoised audio and the engine
with its state buffers advanced; any error leaves the state buffers untouched, exactly
as the Python exception propagates before the state-update loop runs.
A `none` audio-input port raises before inference (line 65 would dereference `None`);
a `none` audio-output port raises after inference but before the state updates
(line 80 indexes the result dict before the loop at lines 83-84). -/
def process_chunk : Engine → List Sample → Except String (List Sample) × Engine
  | ⟨none, ao, st, f⟩, _ =>
    (Except.error "AttributeError: NoneType object has no attribute shape",
     ⟨none, ao, st, f⟩)
  | ⟨some ai, ao, st, f⟩, chunk =>
    match f (mkInputData ai st chunk) with
    | Except.error m => (Except.error m, ⟨some ai, ao, st, f⟩)
    | Except.ok results =>
      match ao with
      | none => (Except.error "KeyError: None", ⟨some ai, none, st, f⟩)
      | some aop =>
        (Except.ok (results aop).data,
         ⟨some ai, some aop, st.map (fun s => { s with buffer := results s.output }), f⟩)

/-- Lines 112-122: block size from the audio-input port's declared shape. -/
def getBlockSize (shape : List Nat) : Nat :=
  if shape.length = 3 then shape.getD 2 0
  else if shape.length = 2 then shape.getD 1 0
  else 1024

/-- Line 159: `pad_len = BLOCK_SIZE - (original_len % BLOCK_SIZE)`. -/
def padLen (bs L : Nat) : Nat := bs - L % bs

/-- Lines 159-161: append `pad_len` zeros unless `pad_len == BLOCK_SIZE`
(i.e. unless the length is already aligned, in which case nothing is appended). -/
def padData (bs : Nat) (data : List Sample) : List Sample :=
  if padLen bs data.length ≠ bs then data ++ List.replicate (padLen bs data.length) 0
  else data

/-- The slice sequence `data[i:i+BLOCK_SIZE]` for `i in range(0, len(data), bs)`.
The fuel argument is bounded by the list length, which suffices whenever `bs > 0`
(`bs = 0` would raise in Python and is excluded by every theorem below). -/
def chunkListAux (bs : Nat) : Nat → List Sample → List (List Sample)
  | _, [] => []
  | 0, _ :: _ => []
  | fuel + 1, c :: t => (c :: t).take bs :: chunkListAux bs fuel ((c :: t).drop bs)

/-- Lines 166-167: the consecutive blocks fed to the engine. -/
def chunkList (bs : Nat) (data : List Sample) : List (List Sample) :=
  chunkListAux bs data.length data

/-- Lines 166-168: feed the blocks through `process_chunk` in order, collecting the
outputs; a backend error propagates (the Python loop has no handler). -/
def runChunks : Engine → List (List Sample) → Except String (List (List Sample)) × Engine
  | e, [] => (Except.ok [], e)
  | e, c :: rest =>
    match process_chunk e c with
    | (Except.error m, e1) => (Except.error m, e1)
    | (Except.ok out, e1) =>
      match runChunks e1 rest with
      | (Except.error m, e2) => (Except.error m, e2)
      | (Except.ok outs, e2) => (Except.ok (out :: outs), e2)

/-- Lines 157-172: record `original_len`, pad, run the loop, then
`np.concatenate(output_audio)[:original_len]`.  `np.concatenate` on an empty list
raises `ValueError`, hence the guard. -/
def offlinePipeline (e : Engine) (bs : Nat) (data : List Sample) :
    Except String (List Sample) × Engine :=
  match runChunks e (chunkList bs (padData bs data)) with
  | (Except.ok outs, e2) =>
    if outs.isEmpty then
      (Except.error "ValueError: need at least one array to concatenate", e2)
    else (Except.ok (outs.flatten.take data.length), e2)
  | (Except.error m, e2) => (Except.error m, e2)

/-- Lines 143-155: `scipy.signal.resample_poly(data, SAMPLE_RATE // gcd, samplerate // gcd)`
run only when the file rate differs from the model rate.  The resampler itself is the
external scipy collaborator, passed as a function. -/
def postResample (fileData : List Sample) (fileRate modelRate : Nat)
    (resample : List Sample → Nat → Nat → List Sample) : List Sample :=
  if fileRate ≠ modelRate then
    resample fileData (modelRate / Nat.gcd fileRate modelRate)
      (fileRate / Nat.gcd fileRate modelRate)
  else fileData

/-- The whole offline file path (lines 135-173), from decoded mono file data to the
samples written to the output file. -/
def fullOffline (e : Engine) (bs : Nat) (fileData : List Sample) (fileRate modelRate : Nat)
    (resample : List Sample → Nat → Nat → List Sample) :
    Except String (List Sample) × Engine :=
  offlinePipeline e bs (postResample fileData fileRate modelRate resample)

/-- Observer: the length of a successful result. -/
def okLength (r : Except String (List Sample)) : Option Nat :=
  match r with
  | Except.ok l => some l.length
  | Except.error _ => none

/-- Observer: the length of the concatenated output before the `[:original_len]`
truncation (line 172), for a successful run. -/
def preTruncLen (e : Engine) (bs : Nat) (data : List Sample) : Option Nat :=
  match runChunks e (chunkList bs (padData bs data)) with
  | (Except.ok outs, _) => some outs.flatten.length
  | (Except.error _, _) => none


/- ===================== Witness fixtures (shared concrete objects) ===================== -/

/-- A rank-2 audio-input port used in several witnesses. -/
def wPortIn : Port := ⟨"audio_input", [1, 2]⟩

/-- An audio-output port used in several witnesses. -/
def wPortOut : Port := ⟨"audio_output", [1, 2]⟩

/-- A concrete backend result dict: every output port maps to a `[1,2]` tensor. -/
def wRes : InferResults := fun _ => ⟨[1, 2], [7, 8]⟩

/-- A concrete backend that always succeeds with `wRes`. -/
def wF : InferFun := fun _ => Except.ok wRes

/-- A concrete backend that always raises. -/
def wErrF : InferFun := fun _ => Except.error "backend failure"

/-- A concrete state pair with a recognizable buffer. -/
def wState : StateEntry := ⟨⟨"inp_state_1", [2]⟩, ⟨"out_state_1", [2]⟩, ⟨[2], [5, 6]⟩⟩

/-- A concrete external resampler that doubles the sample count (as an 8 kHz → 16 kHz
polyphase resample would). -/
def wResample : List Sample → Nat → Nat → List Sample := fun d _ _ => d ++ d

/- ===================== C8: block-size derivation ===================== -/

/-- C8: the block size is derived from the model's declared audio-input shape — the last
dimension for rank 3, the second dimension for rank 2, and the fallback constant 1024 for
any other rank.  `getBlockSize` is computed once in `main` (lines 112-122) and that single
value drives both the offline slicing loop and the realtime stream's `blocksize`. -/
theorem blockSize_derivation :
    (∀ a b c : Nat, getBlockSize [a, b, c] = c) ∧
    (∀ a b : Nat, getBlockSize [a, b] = b) ∧
    (∀ shape : List Nat, shape.length ≠ 2 → shape.length ≠ 3 → getBlockSize shape = 1024) := by
  refine ⟨fun a b c => by simp [getBlockSize], fun a b => by simp [getBlockSize], ?_⟩
  intro shape h2 h3
  simp [getBlockSize, h2, h3]

/-- Closed witness for `blockSize_derivation` at concrete shapes. -/
theorem blockSize_derivation_witness :
    getBlockSize [1, 1, 480] = 480 ∧ getBlockSize [1, 256] = 256 ∧
    getBlockSize [7] = 1024 := by
  refine ⟨blockSize_derivation.1 1 1 480, blockSize_derivation.2.1 1 256, ?_⟩
  exact blockSize_derivation.2.2 [7] (by decide) (by decide)

/- ===================== C7: chunk reshaping per port rank ===================== -/

/-- C7: `process_chunk` binds the audio-input port to the chunk reshaped as `[1, N]`
when the port's declared shape has rank 2, and as `[1, 1, N]` when it has rank 3; the
reshaped chunk is the first binding of the input dict (line 70). -/
theorem reshape_rank_behavior (ai : Port) (st : List StateEntry) (c : List Sample) :
    (mkInputData ai st c).head? = some (ai, reshapeChunk ai c) ∧
    (ai.shape.length = 2 → reshapeChunk ai c = ⟨[1, c.length], c⟩) ∧
    (ai.shape.length = 3 → reshapeChunk ai c = ⟨[1, 1, c.length], c⟩) := by
  refine ⟨rfl, fun h2 => by simp [reshapeChunk, h2], fun h3 => ?_⟩
  have : ai.shape.length ≠ 2 := by omega
  simp [reshapeChunk, this]

/-- Closed witness for `reshape_rank_behavior`: a rank-2 and a rank-3 port. -/
theorem reshape_rank_behavior_witness :
    reshapeChunk ⟨"audio", [1, 4]⟩ [5, 6] = ⟨[1, 2], [5, 6]⟩ ∧
    reshapeChunk ⟨"audio", [1, 1, 4]⟩ [5, 6] = ⟨[1, 1, 2], [5, 6]⟩ :=
  ⟨(reshape_rank_behavior ⟨"audio", [1, 4]⟩ [] [5, 6]).2.1 rfl,
   (reshape_rank_behavior ⟨"audio", [1, 1, 4]⟩ [] [5, 6]).2.2 rfl⟩

/- ===================== C6: determinism of process_chunk ===================== -/

/-- C6: for a fixed engine (same resolved ports, same backend), `process_chunk` is a pure
function of the input chunk and the current state-buffer contents: two calls with equal
chunks from equal state buffers produce identical outputs and identical new state buffers.
The source method reads nothing besides `self.audio_input`, `self.audio_output`,
`self.states` and the backend session. -/
theorem processChunk_deterministic (a1 a2 b1 b2 : Option Port) (s1 s2 : List StateEntry)
    (f1 f2 : InferFun) (c1 c2 : List Sample)
    (ha : a1 = a2) (hb : b1 = b2) (hs : s1 = s2) (hf : f1 = f2) (hc : c1 = c2) :
    process_chunk ⟨a1, b1, s1, f1⟩ c1 = process_chunk ⟨a2, b2, s2, f2⟩ c2 := by
  subst ha hb hs hf hc; rfl

/-- Closed witness for `processChunk_deterministic`: two separately built but identical
engines give identical results on the same chunk. -/
theorem processChunk_deterministic_witness :
    process_chunk ⟨some wPortIn, some wPortOut, [wState], wF⟩ [3, 4] =
      process_chunk ⟨some wPortIn, some wPortOut, [wState], wF⟩ [3, 4] :=
  processChunk_deterministic (some wPortIn) (some wPortIn) (some wPortOut) (some wPortOut)
    [wState] [wState] wF wF [3, 4] [3, 4] rfl rfl rfl rfl rfl

/- ===================== C3: backend error leaves state untouched ===================== -/

/-- C3: if the backend execution raises during `process_chunk`, the call aborts the chunk
with that error and the engine — in particular every state buffer — is exactly its
pre-call value: the Python exception at line 77 propagates before the state-update loop
at lines 83-84 runs. -/
theorem processChunk_error_preserves_state (ai : Port) (ao : Option Port)
    (st : List StateEntry) (f : InferFun) (c : List Sample) (m : String)
    (herr : f (mkInputData ai st c) = Except.error m) :
    process_chunk ⟨some ai, ao, st, f⟩ c = (Except.error m, ⟨some ai, ao, st, f⟩) := by
  simp [process_chunk, herr]

/-- Closed witness for `processChunk_error_preserves_state`: a failing backend leaves the
concrete state pair's buffer `[5, 6]` in place. -/
theorem processChunk_error_preserves_state_witness :
    process_chunk ⟨some wPortIn, some wPortOut, [wState], wErrF⟩ [3, 4] =
      (Except.error "backend failure", ⟨some wPortIn, some wPortOut, [wState], wErrF⟩) :=
  processChunk_error_preserves_state wPortIn (some wPortOut) [wState] wErrF [3, 4]
    "backend failure" rfl

/- ===================== C10: frame condition of process_chunk ===================== -/

/-- C10: a successfully completing `process_chunk` call mutates only the per-pair state
buffers: the resolved audio-input and audio-output ports, the backend handle, and the set
and order of state pairs (their input and output ports) are unchanged.  The caller's
chunk is a value in this embedding and the source never writes to `audio_chunk` (it only
builds reshaped views of it). -/
theorem processChunk_frame_condition (ai ao : Option Port) (st : List StateEntry)
    (f : InferFun) (c out : List Sample)
    (hok : (process_chunk ⟨ai, ao, st, f⟩ c).1 = Except.ok out) :
    (process_chunk ⟨ai, ao, st, f⟩ c).2.audio_input = ai ∧
    (process_chunk ⟨ai, ao, st, f⟩ c).2.audio_output = ao ∧
    (process_chunk ⟨ai, ao, st, f⟩ c).2.infer = f ∧
    (process_chunk ⟨ai, ao, st, f⟩ c).2.states.map StateEntry.input =
      st.map StateEntry.input ∧
    (process_chunk ⟨ai, ao, st, f⟩ c).2.states.map StateEntry.output =
      st.map StateEntry.output ∧
    (process_chunk ⟨ai, ao, st, f⟩ c).2.states.length = st.length := by
  cases ai with
  | none => simp [process_chunk] at hok
  | some a =>
    cases hres : f (mkInputData a st c) with
    | error m => simp [process_chunk, hres] at hok
    | ok results =>
      cases ao with
      | none => simp [process_chunk, hres] at hok
      | some aop =>
        simp only [process_chunk, hres]
        refine ⟨trivial, trivial, trivial, ?_, ?_, by simp⟩
        · simp [List.map_map]
        · simp [List.map_map]

/-- Closed witness for `processChunk_frame_condition` on a succeeding engine with one
state pair. -/
theorem processChunk_frame_condition_witness :
    (process_chunk ⟨some wPortIn, some wPortOut, [wState], wF⟩ [3, 4]).2.audio_input =
      some wPortIn ∧
    (process_chunk ⟨some wPortIn, some wPortOut, [wState], wF⟩ [3, 4]).2.audio_output =
      some wPortOut ∧
    (process_chunk ⟨some wPortIn, some wPortOut, [wState], wF⟩ [3, 4]).2.infer = wF ∧
    (process_chunk ⟨some wPortIn, some wPortOut, [wState], wF⟩ [3, 4]).2.states.map
      StateEntry.input = [wState].map StateEntry.input ∧
    (process_chunk ⟨some wPortIn, some wPortOut, [wState], wF⟩ [3, 4]).2.states.map
      StateEntry.output = [wState].map StateEntry.output ∧
    (process_chunk ⟨some wPortIn, some wPortOut, [wState], wF⟩ [3, 4]).2.states.length =
      [wState].length :=
  processChunk_frame_condition (some wPortIn) (some wPortOut) [wState] wF [3, 4] [7, 8] rfl

/- ===================== C1: port resolution never fails ===================== -/

/-- If no port in the list satisfies the test, the first-match search returns `none`. -/
theorem findFirstPort_none (p : Port → Bool) :
    ∀ l : List Port, (∀ o ∈ l, p o = false) → findFirstPort p l = none := by
  intro l
  induction l with
  | nil => intro _; rfl
  | cons o rest ih =>
    intro h
    have ho := h o (by simp)
    simp [findFirstPort, ho]
    exact ih fun x hx => h x (by simp [hx])

/-- C1 counterexample: a model with one state input whose identifier matches no output,
and no audio-input port at all — the claim demands a `PortResolutionError` and no engine;
the code's port resolution is a total function that completes, producing an engine whose
audio input is `None` and whose state list is empty (lines 26-51 contain no raise). -/
theorem resolver_total_on_malformed_model :
    (initEngine [⟨"inp_state_1", [1, 2]⟩] [⟨"main_out", [1, 2]⟩] wErrF).audio_input =
      none ∧
    (initEngine [⟨"inp_state_1", [1, 2]⟩] [⟨"main_out", [1, 2]⟩] wErrF).audio_output =
      some ⟨"main_out", [1, 2]⟩ ∧
    (initEngine [⟨"inp_state_1", [1, 2]⟩] [⟨"main_out", [1, 2]⟩] wErrF).states = [] := by
  refine ⟨?_, ?_, ?_⟩ <;> decide

/-- C1 amended: port resolution never raises.  With no non-state input the audio-input
slot is left `None`; a state input with no matching state output is silently skipped (no
pair is created); with several non-state inputs the last one silently wins; with several
non-state outputs the first one wins.  Engine construction completes in every such case. -/
theorem resolver_no_failure_behavior :
    (∀ outs : List Port, (resolvePorts [] outs).audio_input = none) ∧
    (∀ (p : Port) (outs : List Port), pyIn "state" p.name = true →
      (∀ o ∈ outs, pyIn ("state_" ++ stateIdOf p.name) o.name = false) →
      (resolvePorts [p] outs).states = []) ∧
    (∀ (i1 i2 : Port) (outs : List Port),
      pyIn "state" i1.name = false → pyIn "state" i2.name = false →
      (resolvePorts [i1, i2] outs).audio_input = some i2) ∧
    (∀ (ins : List Port) (o1 o2 : Port), pyIn "state" o1.name = false →
      (resolvePorts ins [o1, o2]).audio_output = some o1) := by
  refine ⟨fun outs => rfl, ?_, ?_, ?_⟩
  · intro p outs hp hnone
    simp only [resolvePorts, statesOf, hp]
    rw [findFirstPort_none _ outs hnone]
    simp [statesOf]
  · intro i1 i2 outs h1 h2
    simp [resolvePorts, audioInputOf, h1, h2]
  · intro ins o1 o2 h1
    simp [resolvePorts, audioOutputOf, findFirstPort, h1]

/-- Closed witness for `resolver_no_failure_behavior` on concrete malformed models. -/
theorem resolver_no_failure_behavior_witness :
    (resolvePorts [] [⟨"main_out", [1, 2]⟩]).audio_input = none ∧
    (resolvePorts [⟨"inp_state_1", [1, 2]⟩] [⟨"main_out", [1, 2]⟩]).states = [] ∧
    (resolvePorts [⟨"mic_a", [1, 2]⟩, ⟨"mic_b", [1, 2]⟩]
        [⟨"main_out", [1, 2]⟩]).audio_input = some ⟨"mic_b", [1, 2]⟩ ∧
    (resolvePorts [⟨"mic_a", [1, 2]⟩]
        [⟨"out_a", [1, 2]⟩, ⟨"out_b", [1, 2]⟩]).audio_output = some ⟨"out_a", [1, 2]⟩ :=
  ⟨resolver_no_failure_behavior.1 [⟨"main_out", [1, 2]⟩],
   resolver_no_failure_behavior.2.1 ⟨"inp_state_1", [1, 2]⟩ [⟨"main_out", [1, 2]⟩]
     (by decide) (by decide),
   resolver_no_failure_behavior.2.2.1 ⟨"mic_a", [1, 2]⟩ ⟨"mic_b", [1, 2]⟩
     [⟨"main_out", [1, 2]⟩] (by decide) (by decide),
   resolver_no_failure_behavior.2.2.2 [⟨"mic_a", [1, 2]⟩] ⟨"out_a", [1, 2]⟩
     ⟨"out_b", [1, 2]⟩ (by decide)⟩

/- ===================== C9: substring state pairing collides ===================== -/

/-- C9: state pairing is by substring containment of `"state_" ++ id`, not identifier
equality.  With inputs `inp_state_1`, `inp_state_10` and outputs enumerated
`out_state_10`, `out_state_1`, `out_audio`: the input `inp_state_1` (id `"1"`) is paired
with `out_state_10` — an output carrying a different state identifier — because
`"state_1"` occurs inside `"out_state_10"` and that output comes first; consequently both
distinct state inputs are paired with the same output port `out_state_10`. -/
theorem state_pairing_substring_collision :
    (resolvePorts
        [⟨"inp_state_1", [1, 4]⟩, ⟨"inp_state_10", [1, 4]⟩]
        [⟨"out_state_10", [1, 4]⟩, ⟨"out_state_1", [1, 4]⟩, ⟨"out_audio", [1, 4]⟩]
      ).states.map (fun s => (s.input.name, s.output.name)) =
      [("inp_state_1", "out_state_10"), ("inp_state_10", "out_state_10")] := by
  decide

/- ===================== C2: padding skips aligned input ===================== -/

/-- Case analysis of the padding step (lines 159-161): when the length is already a
multiple of the block size, `pad_len == BLOCK_SIZE` and the `np.pad` call is skipped;
otherwise `pad_len` zeros are appended. -/
theorem padData_eq (bs : Nat) (d : List Sample) (hbs : 0 < bs) :
    (d.length % bs = 0 ∧ padData bs d = d) ∨
    (d.length % bs ≠ 0 ∧
      padData bs d = d ++ List.replicate (bs - d.length % bs) 0) := by
  by_cases h : d.length % bs = 0
  · left
    refine ⟨h, ?_⟩
    have hp : padLen bs d.length = bs := by
      unfold padLen; rw [h]; exact Nat.sub_zero bs
    unfold padData
    rw [if_neg (by simp [hp])]
  · right
    refine ⟨h, ?_⟩
    have hlt : d.length % bs < bs := Nat.mod_lt _ hbs
    have h0 : 0 < d.length % bs := Nat.pos_of_ne_zero h
    have hp : padLen bs d.length ≠ bs := by
      unfold padLen
      intro hcon
      omega
    unfold padData
    rw [if_pos hp]
    unfold padLen
    rfl

/-- C2 counterexample: block size 4, input of length 8 (already aligned).  The claim
demands a full extra block of 4 zeros (final length 12); the code appends nothing — the
padded data is the input itself, of length 8. -/
theorem pad_skips_aligned_input :
    padData 4 (List.replicate 8 0) = List.replicate 8 0 ∧
    ¬(padData 4 (List.replicate 8 0)).length = 8 + 4 := by
  refine ⟨by decide, by decide⟩

/-- C2 amended: for a mono input of length `L`, the pad appended is
`blockSize - (L mod blockSize)` zeros when `L` is not a multiple of `blockSize`, and
nothing at all when `L` is already a multiple (the `if pad_len != BLOCK_SIZE` guard at
line 160 skips the `np.pad` call — never a full extra block). -/
theorem pad_length_behavior (bs : Nat) (d : List Sample) (hbs : 0 < bs) :
    (d.length % bs ≠ 0 →
      padData bs d = d ++ List.replicate (bs - d.length % bs) 0 ∧
      (padData bs d).length = d.length + (bs - d.length % bs)) ∧
    (d.length % bs = 0 → padData bs d = d) := by
  constructor
  · intro h
    rcases padData_eq bs d hbs with ⟨h0, _⟩ | ⟨_, heq⟩
    · exact absurd h0 h
    · exact ⟨heq, by rw [heq]; simp⟩
  · intro h
    rcases padData_eq bs d hbs with ⟨_, heq⟩ | ⟨h0, _⟩
    · exact heq
    · exact absurd h h0

/-- Closed witness for `pad_length_behavior`: block size 4 with an input of length 6
(pad 2 zeros) and one of length 8 (no pad). -/
theorem pad_length_behavior_witness :
    (padData 4 [1, 2, 3, 4, 5, 6] = [1, 2, 3, 4, 5, 6] ++ List.replicate (4 - 6 % 4) 0 ∧
      (padData 4 [1, 2, 3, 4, 5, 6]).length = 6 + (4 - 6 % 4)) ∧
    padData 4 [1, 2, 3, 4, 5, 6, 7, 8] = [1, 2, 3, 4, 5, 6, 7, 8] :=
  ⟨(pad_length_behavior 4 [1, 2, 3, 4, 5, 6] (by decide)).1 (by decide),
   (pad_length_behavior 4 [1, 2, 3, 4, 5, 6, 7, 8] (by decide)).2 (by decide)⟩

/- ===================== Offline run machinery (C4, C5) ===================== -/

/-- One successful `process_chunk` step on an engine with both audio ports resolved. -/
theorem process_chunk_ok_step (ai aop : Port) (st : List StateEntry) (f : InferFun)
    (c : List Sample) (res : InferResults)
    (hres : f (mkInputData ai st c) = Except.ok res) :
    process_chunk ⟨some ai, some aop, st, f⟩ c =
      (Except.ok (res aop).data,
       ⟨some ai, some aop, st.map (fun s => { s with buffer := res s.output }), f⟩) := by
  simp [process_chunk, hres]

/-- If the backend always succeeds and always yields a block-size audio output, the
sequential loop succeeds, produces one output per chunk, each of block size, and
only the state buffers of the engine change. -/
theorem runChunks_ok (ai aop : Port) (f : InferFun) (bs : Nat)
    (hf : ∀ d, ∃ res, f d = Except.ok res ∧ (res aop).data.length = bs) :
    ∀ (chunks : List (List Sample)) (st : List StateEntry),
      ∃ outs st2,
        runChunks ⟨some ai, some aop, st, f⟩ chunks =
          (Except.ok outs, ⟨some ai, some aop, st2, f⟩) ∧
        outs.length = chunks.length ∧ ∀ o ∈ outs, o.length = bs := by
  intro chunks
  induction chunks with
  | nil =>
    intro st
    exact ⟨[], st, rfl, rfl, by simp⟩
  | cons c rest ih =>
    intro st
    obtain ⟨res, hres, hlen⟩ := hf (mkInputData ai st c)
    obtain ⟨outs, st2, hrun, hcount, hall⟩ :=
      ih (st.map (fun s => { s with buffer := res s.output }))
    refine ⟨(res aop).data :: outs, st2, ?_, by simp [hcount], ?_⟩
    · simp [runChunks, process_chunk_ok_step ai aop st f c res hres, hrun]
    · intro o ho
      rcases List.mem_cons.mp ho with h | h
      · rw [h]; exact hlen
      · exact hall o h

/-- Concatenating lists that all have length `bs` gives `count * bs` samples. -/
theorem flatten_len_const (bs : Nat) :
    ∀ outs : List (List Sample), (∀ o ∈ outs, o.length = bs) →
      outs.flatten.length = outs.length * bs := by
  intro outs
  induction outs with
  | nil => intro _; simp
  | cons a l ih =>
    intro h
    have ha := h a (by simp)
    have hl := ih fun o ho => h o (by simp [ho])
    simp only [List.flatten_cons, List.length_append, List.length_cons, hl, ha]
    rw [Nat.succ_mul]
    exact Nat.add_comm bs (l.length * bs)

/-- With positive block size and aligned input length, the slicing loop produces
exactly `length / bs` chunks (stated multiplicatively). -/
theorem chunkListAux_len_mul (bs : Nat) (hbs : 0 < bs) :
    ∀ (fuel : Nat) (l : List Sample), l.length ≤ fuel → l.length % bs = 0 →
      (chunkListAux bs fuel l).length * bs = l.length := by
  intro fuel
  induction fuel with
  | zero =>
    intro l hl _
    have hnil : l = [] := List.eq_nil_of_length_eq_zero (Nat.le_zero.mp hl)
    subst hnil
    simp [chunkListAux]
  | succ n ih =>
    intro l hl hmod
    cases l with
    | nil => simp [chunkListAux]
    | cons c t =>
      have hdvd := Nat.dvd_of_mod_eq_zero hmod
      have hge : bs ≤ (c :: t).length := Nat.le_of_dvd (by simp) hdvd
      have hdropLen : ((c :: t).drop bs).length = (c :: t).length - bs := by
        simp [List.length_drop]
      have hdropMod : ((c :: t).drop bs).length % bs = 0 := by
        rw [hdropLen]
        obtain ⟨k, hk⟩ := hdvd
        cases k with
        | zero => rw [hk]; simp
        | succ m =>
          rw [hk, Nat.mul_succ, Nat.add_sub_cancel]
          exact Nat.mul_mod_right bs m
      have hfuel : ((c :: t).drop bs).length ≤ n := by
        rw [hdropLen]
        have hl2 : (c :: t).length ≤ n + 1 := hl
        have h1 : 1 ≤ bs := hbs
        omega
      have hrec := ih ((c :: t).drop bs) hfuel hdropMod
      simp only [chunkListAux, List.length_cons]
      rw [Nat.succ_mul, hrec, hdropLen]
      exact Nat.sub_add_cancel hge

/-- The slicing loop on a nonempty list emits at least one chunk. -/
theorem chunkListAux_ne_nil (bs n : Nat) (c : Sample) (t : List Sample) :
    chunkListAux bs (n + 1) (c :: t) ≠ [] := by
  simp [chunkListAux]

/-- After the padding step the length is always a multiple of the block size
(the aligned case is untouched, the unaligned case is completed to the next multiple). -/
theorem padData_mod (bs : Nat) (d : List Sample) (hbs : 0 < bs) :
    (padData bs d).length % bs = 0 := by
  rcases padData_eq bs d hbs with ⟨h, heq⟩ | ⟨h, heq⟩
  · rw [heq]; exact h
  · rw [heq]
    simp only [List.length_append, List.length_replicate]
    have hlt : d.length % bs < bs := Nat.mod_lt _ hbs
    have h0 : 0 < d.length % bs := Nat.pos_of_ne_zero h
    have hlt2 : bs - d.length % bs < bs := by omega
    rw [Nat.add_mod, Nat.mod_eq_of_lt hlt2, Nat.add_sub_cancel' (Nat.le_of_lt hlt),
      Nat.mod_self]

/-- Padding never shortens the data. -/
theorem padData_le (bs : Nat) (d : List Sample) (hbs : 0 < bs) :
    d.length ≤ (padData bs d).length := by
  rcases padData_eq bs d hbs with ⟨_, heq⟩ | ⟨_, heq⟩
  · rw [heq]
  · rw [heq]; simp

/-- Padding a nonempty input leaves it nonempty. -/
theorem padData_ne_nil (bs : Nat) (d : List Sample) (hbs : 0 < bs) (hd : d ≠ []) :
    padData bs d ≠ [] := by
  rcases padData_eq bs d hbs with ⟨_, heq⟩ | ⟨_, heq⟩ <;> rw [heq] <;> simp [hd]

/-- Master length accounting for a successful offline run on nonempty data: the
concatenated output before truncation has exactly the padded length, and the final
(truncated) output has exactly the length recorded at line 157. -/
theorem offline_run_length (ai aop : Port) (st : List StateEntry) (f : InferFun)
    (bs : Nat) (data : List Sample) (hbs : 0 < bs) (hne : data ≠ [])
    (hf : ∀ d, ∃ res, f d = Except.ok res ∧ (res aop).data.length = bs) :
    preTruncLen ⟨some ai, some aop, st, f⟩ bs data = some (padData bs data).length ∧
    okLength (offlinePipeline ⟨some ai, some aop, st, f⟩ bs data).1 =
      some data.length := by
  obtain ⟨outs, st2, hrun, hcount, hall⟩ :=
    runChunks_ok ai aop f bs hf (chunkList bs (padData bs data)) st
  have hchunksLen :
      (chunkList bs (padData bs data)).length * bs = (padData bs data).length := by
    unfold chunkList
    exact chunkListAux_len_mul bs hbs (padData bs data).length (padData bs data)
      (Nat.le_refl _) (padData_mod bs data hbs)
  have hflat : outs.flatten.length = (padData bs data).length := by
    rw [flatten_len_const bs outs hall, hcount, hchunksLen]
  have houts_ne : outs ≠ [] := by
    intro hnil
    have hchne : chunkList bs (padData bs data) ≠ [] := by
      have hpn : padData bs data ≠ [] := padData_ne_nil bs data hbs hne
      unfold chunkList
      cases hp : padData bs data with
      | nil => exact absurd hp hpn
      | cons c t => exact chunkListAux_ne_nil bs t.length c t
    rw [hnil] at hcount
    exact hchne (List.eq_nil_of_length_eq_zero hcount.symm)
  have hie : outs.isEmpty = false := by
    cases outs with
    | nil => exact absurd rfl houts_ne
    | cons a l => rfl
  constructor
  · unfold preTruncLen
    rw [hrun]
    simp [hflat]
  · unfold offlinePipeline okLength
    rw [hrun]
    simp only [hie]
    simp [List.length_take, hflat, Nat.min_eq_left (padData_le bs data hbs)]

/- ===================== C4: padding round-trip lengths ===================== -/

/-- C4: for an offline input whose length `L` is not a multiple of the block size, given
a backend whose every inference yields a block-size output, the concatenated output
before truncation has length `L + (blockSize - L mod blockSize)` and the audio written
after the `[:original_len]` truncation has length exactly `L`. -/
theorem offline_padding_roundtrip (ai aop : Port) (st : List StateEntry) (f : InferFun)
    (bs : Nat) (data : List Sample) (hbs : 0 < bs) (hL : data.length % bs ≠ 0)
    (hf : ∀ d, ∃ res, f d = Except.ok res ∧ (res aop).data.length = bs) :
    preTruncLen ⟨some ai, some aop, st, f⟩ bs data =
      some (data.length + (bs - data.length % bs)) ∧
    okLength (offlinePipeline ⟨some ai, some aop, st, f⟩ bs data).1 =
      some data.length := by
  have hne : data ≠ [] := by
    intro hnil
    rw [hnil] at hL
    simp at hL
  obtain ⟨h1, h2⟩ := offline_run_length ai aop st f bs data hbs hne hf
  refine ⟨?_, h2⟩
  rw [h1]
  rcases padData_eq bs data hbs with ⟨h0, _⟩ | ⟨_, heq⟩
  · exact absurd h0 hL
  · rw [heq]; simp

/-- Closed witness for `offline_padding_roundtrip`: block size 2, input `[1, 2, 3]` —
4 samples before truncation, 3 after. -/
theorem offline_padding_roundtrip_witness :
    preTruncLen ⟨some wPortIn, some wPortOut, [], wF⟩ 2 [1, 2, 3] = some 4 ∧
    okLength (offlinePipeline ⟨some wPortIn, some wPortOut, [], wF⟩ 2 [1, 2, 3]).1 =
      some 3 :=
  offline_padding_roundtrip wPortIn wPortOut [] wF 2 [1, 2, 3] (by decide) (by decide)
    (fun _ => ⟨wRes, rfl, rfl⟩)

/- ===================== C5: length recorded after resampling ===================== -/

/-- C5 counterexample: a 3-sample 8 kHz file processed at model rate 16 kHz with a
resampler that doubles the sample count.  The claim says the output has exactly the
file-load sample count (3); the code records `original_len` at line 157, after the
resample step of lines 143-155, so the written output has 6 samples, not 3. -/
theorem offline_len_recorded_after_resample :
    okLength (fullOffline ⟨some wPortIn, some wPortOut, [], wF⟩ 2 [1, 2, 3]
        8000 16000 wResample).1 = some 6 ∧
    ¬ okLength (fullOffline ⟨some wPortIn, some wPortOut, [], wF⟩ 2 [1, 2, 3]
        8000 16000 wResample).1 = some 3 := by
  refine ⟨by decide, by decide⟩

/-- C5 amended: the offline pipeline records the sample count after the resample step
(line 157 follows lines 143-155), so — for a backend yielding block-size outputs — the
audio written to the output file has exactly the post-resample sample count.  When the
file's native rate differs from the model rate and resampling changes the count, the
output length is the resampled length, not the count at file-load time. -/
theorem offline_output_matches_post_resample_len (ai aop : Port) (st : List StateEntry)
    (f : InferFun) (bs : Nat) (fileData : List Sample) (fileRate modelRate : Nat)
    (resample : List Sample → Nat → Nat → List Sample) (hbs : 0 < bs)
    (hne : postResample fileData fileRate modelRate resample ≠ [])
    (hf : ∀ d, ∃ res, f d = Except.ok res ∧ (res aop).data.length = bs) :
    okLength (fullOffline ⟨some ai, some aop, st, f⟩ bs fileData fileRate modelRate
        resample).1 =
      some (postResample fileData fileRate modelRate resample).length := by
  unfold fullOffline
  exact (offline_run_length ai aop st f bs
    (postResample fileData fileRate modelRate resample) hbs hne hf).2

/-- Closed witness for `offline_output_matches_post_resample_len`: the doubled (6-sample)
resampled data yields a 6-sample output. -/
theorem offline_output_matches_post_resample_len_witness :
    okLength (fullOffline ⟨some wPortIn, some wPortOut, [], wF⟩ 2 [1, 2, 3]
        8000 16000 wResample).1 = some 6 :=
  offline_output_matches_post_resample_len wPortIn wPortOut [] wF 2 [1, 2, 3] 8000 16000
    wResample (by decide) (by decide) (fun _ => ⟨wRes, rfl, rfl⟩)
